import Mathlib

/-!
Verification of the gpx-analyzer track-metrics engine (`app/metrics.py`)
against its natural-language specification.

Modelling conventions:
* latitudes, longitudes, distances and speeds are real numbers;
* timestamps and elevations, which come from decimal text in the GPX file,
  are rationals (`total_seconds()` differences are exact to microseconds),
  and optional fields are `Option`;
* Python `int(dt)` for `dt > 0` is `Int.floor`;
* the per-pair loop of `compute_metrics` is an explicit state-passing fold.
-/

open scoped Classical

noncomputable section

namespace GpxAnalyzer

/-- `math.radians`: degrees to radians. -/
def radians (x : ℝ) : ℝ := x * Real.pi / 180

/-- `haversine` from `app/metrics.py` lines 8-14, translated verbatim. -/
def haversine (lat1 lon1 lat2 lon2 : ℝ) : ℝ :=
  let R : ℝ := 6371000
  let dlat := radians (lat2 - lat1)
  let dlon := radians (lon2 - lon1)
  let a := Real.sin (dlat / 2) ^ 2 +
    Real.cos (radians lat1) * Real.cos (radians lat2) * Real.sin (dlon / 2) ^ 2
  let c := 2 * Real.arcsin (Real.sqrt a)
  R * c

/-- `Point` dataclass: optional timestamp, coordinates, optional elevation. -/
structure Point where
  t : Option ℚ
  lat : ℝ
  lon : ℝ
  ele : Option ℚ

/-- `Metrics` dataclass from `app/metrics.py` lines 23-38. -/
structure Metrics where
  distance_m : ℝ
  total_time_s : ℤ
  moving_time_s : ℤ
  avg_speed_mps : ℝ
  avg_moving_speed_mps : ℝ
  max_speed_mps : ℝ
  ascent_m : ℚ
  descent_m : ℚ
  min_elev_m : Option ℚ
  max_elev_m : Option ℚ
  start_time : Option ℚ
  end_time : Option ℚ
  speed_series : List (Option ℚ × ℝ)
  elev_profile : List (ℝ × ℚ)

/-- Mutable accumulator state of the `compute_metrics` loop
(`app/metrics.py` lines 53-66). -/
structure S where
  distance_m : ℝ
  total_time_s : ℤ
  moving_time_s : ℤ
  max_speed_mps : ℝ
  ascent : ℚ
  descent : ℚ
  min_ele : Option ℚ
  max_ele : Option ℚ
  speed_series : List (Option ℚ × ℝ)
  elev_series : List (ℝ × ℚ)
  cum_dist : ℝ

/-- The loop's `dt`: initialised to `0.0`, set to
`(cur.t - prev.t).total_seconds()` when both timestamps are present
(`app/metrics.py` lines 70-72). -/
def pairDt (prev cur : Point) : ℚ :=
  match prev.t, cur.t with
  | some a, some b => b - a
  | _, _ => 0

/-- One iteration of the `for cur in pts[1:]` loop body
(`app/metrics.py` lines 68-91), written field by field: each accumulator's
update carries the `if`/`None`-check that guards its mutation in the source
(`v = d/dt` exists in the source only under `dt > 0`, and is only used
there). -/
def step (thr : ℝ) (prev cur : Point) (s : S) : S :=
  let d := haversine prev.lat prev.lon cur.lat cur.lon
  let dt := pairDt prev cur
  let v := d / ((dt : ℚ) : ℝ)
  let cum := s.cum_dist + d
  { distance_m := s.distance_m + d
    total_time_s := s.total_time_s + (if 0 < dt then ⌊dt⌋ else 0)
    moving_time_s :=
      s.moving_time_s + (if 0 < dt then (if thr ≤ v then ⌊dt⌋ else 0) else 0)
    max_speed_mps :=
      if 0 < dt then (if s.max_speed_mps < v then v else s.max_speed_mps)
      else s.max_speed_mps
    ascent :=
      match prev.ele, cur.ele with
      | some pe, some ce => if 0 < ce - pe then s.ascent + (ce - pe) else s.ascent
      | _, _ => s.ascent
    descent :=
      match prev.ele, cur.ele with
      | some pe, some ce => if 0 < ce - pe then s.descent else s.descent + (-(ce - pe))
      | _, _ => s.descent
    min_ele :=
      match prev.ele, cur.ele with
      | some _, some ce =>
        (match s.min_ele with
          | none => some ce
          | some m => if ce < m then some ce else some m)
      | _, _ => s.min_ele
    max_ele :=
      match prev.ele, cur.ele with
      | some _, some ce =>
        (match s.max_ele with
          | none => some ce
          | some m => if m < ce then some ce else some m)
      | _, _ => s.max_ele
    speed_series := s.speed_series ++ (if 0 < dt then [(cur.t <|> prev.t, v)] else [])
    elev_series :=
      s.elev_series ++ (match cur.ele with | some ce => [(cum, ce)] | none => [])
    cum_dist := cum }

/-- The whole loop: `prev = pts[0]; for cur in pts[1:]: ...; prev = cur`. -/
def loop (thr : ℝ) : Point → List Point → S → S
  | _, [], s => s
  | prev, cur :: rest, s => loop thr cur rest (step thr prev cur s)

/-- Initial accumulator state (`app/metrics.py` lines 53-66):
`min_ele`/`max_ele` start from `pts[0].ele`. -/
def initS (p0 : Point) : S :=
  { distance_m := 0, total_time_s := 0, moving_time_s := 0, max_speed_mps := 0,
    ascent := 0, descent := 0, min_ele := p0.ele, max_ele := p0.ele,
    speed_series := [], elev_series := [], cum_dist := 0 }

/-- `compute_metrics` from `app/metrics.py` lines 50-98.  The moving-speed
threshold (default `1.0` in the source) is an explicit parameter. -/
def compute_metrics (pts : List Point) (moving_threshold_mps : ℝ) : Metrics :=
  match pts with
  | [] => ⟨0, 0, 0, 0, 0, 0, 0, 0, none, none, none, none, [], []⟩
  | p0 :: rest =>
    let s := loop moving_threshold_mps p0 rest (initS p0)
    let avg : ℝ := if 0 < s.total_time_s then s.distance_m / (s.total_time_s : ℝ) else 0
    let avgm : ℝ := if 0 < s.moving_time_s then s.distance_m / (s.moving_time_s : ℝ) else 0
    ⟨s.distance_m, s.total_time_s, s.moving_time_s, avg, avgm, s.max_speed_mps,
      s.ascent, s.descent, s.min_ele, s.max_ele, p0.t,
      ((p0 :: rest).getLast (List.cons_ne_nil p0 rest)).t,
      s.speed_series, s.elev_series⟩

/-- The consecutive point pairs of a sequence, in order. -/
def zipPairs (pts : List Point) : List (Point × Point) := pts.zip pts.tail

/-- Specification-side restatement: total time as the straight-line sum over
consecutive pairs of the truncated positive time deltas. -/
def totalTimeSpec : Point → List Point → ℤ
  | _, [] => 0
  | prev, cur :: rest =>
    (if 0 < pairDt prev cur then ⌊pairDt prev cur⌋ else 0) + totalTimeSpec cur rest

def totalTimeSpecOf : List Point → ℤ
  | [] => 0
  | p0 :: rest => totalTimeSpec p0 rest

/-- Number of consecutive pairs whose time delta is positive (both
timestamps present and strictly increasing). -/
def countPosDt : Point → List Point → ℕ
  | _, [] => 0
  | prev, cur :: rest => (if 0 < pairDt prev cur then 1 else 0) + countPosDt cur rest

def countPosDtOf : List Point → ℕ
  | [] => 0
  | p0 :: rest => countPosDt p0 rest

/-- Specification-side restatement of the speed time-series: one entry per
consecutive pair with a positive time delta, keyed by the later point's
timestamp, valued at pair distance over pair time delta. -/
def speedSeriesSpec : Point → List Point → List (Option ℚ × ℝ)
  | _, [] => []
  | prev, cur :: rest =>
    (if 0 < pairDt prev cur then
      [(cur.t, haversine prev.lat prev.lon cur.lat cur.lon / ((pairDt prev cur : ℚ) : ℝ))]
    else []) ++ speedSeriesSpec cur rest

def speedSeriesSpecOf : List Point → List (Option ℚ × ℝ)
  | [] => []
  | p0 :: rest => speedSeriesSpec p0 rest

/-- The haversine great-circle distance exactly as the specification words it:
`a = sin²(Δlat/2) + cos(lat1)·cos(lat2)·sin²(Δlon/2)`, `d = 2·R·asin(√a)`
on a sphere of radius 6,371,000 meters (angles converted to radians). -/
def haversineSpec (lat1 lon1 lat2 lon2 : ℝ) : ℝ :=
  let a := Real.sin (radians (lat2 - lat1) / 2) ^ 2 +
    Real.cos (radians lat1) * Real.cos (radians lat2) *
      Real.sin (radians (lon2 - lon1) / 2) ^ 2
  2 * 6371000 * Real.arcsin (Real.sqrt a)

/-- Specification-side total distance: sum of per-pair haversine distances. -/
def distanceSpec : Point → List Point → ℝ
  | _, [] => 0
  | prev, cur :: rest =>
    haversineSpec prev.lat prev.lon cur.lat cur.lon + distanceSpec cur rest

def distanceSpecOf : List Point → ℝ
  | [] => 0
  | p0 :: rest => distanceSpec p0 rest

/-- Sum of per-pair distances using the source's `haversine` (helper for
relating the loop's accumulators to straight-line sums). -/
def hsum : Point → List Point → ℝ
  | _, [] => 0
  | prev, cur :: rest => haversine prev.lat prev.lon cur.lat cur.lon + hsum cur rest

/-- Elevations the loop's min/max tracking actually inspects after the first
point: the later point's elevation of every consecutive pair in which both
points have a defined elevation. -/
def pairEles : Point → List Point → List ℚ
  | _, [] => []
  | prev, cur :: rest =>
    (match prev.ele, cur.ele with
      | some _, some ce => [ce]
      | _, _ => []) ++ pairEles cur rest

def pairElesOf : List Point → List ℚ
  | [] => []
  | p0 :: rest => pairEles p0 rest

def headEle : List Point → Option ℚ
  | [] => none
  | p0 :: _ => p0.ele

/-- Running minimum of a list of rationals starting from an optional seed. -/
def minFold : Option ℚ → List ℚ → Option ℚ
  | acc, [] => acc
  | none, c :: cs => minFold (some c) cs
  | some m, c :: cs => minFold (some (min m c)) cs

/-- Running maximum of a list of rationals starting from an optional seed. -/
def maxFold : Option ℚ → List ℚ → Option ℚ
  | acc, [] => acc
  | none, c :: cs => maxFold (some c) cs
  | some m, c :: cs => maxFold (some (max m c)) cs

/-- All defined elevations of a point sequence (the set the claim C3 quantifies
over). -/
def elesOfPoints (pts : List Point) : List ℚ := pts.filterMap (fun p => p.ele)

/-- Gait buckets (walk/trot/canter). -/
inductive GaitBucket
  | walk
  | trot
  | canter
deriving DecidableEq

/-- Modelled from the spec: the gait-classification function of §4.3 and §9
("a pure function classify(speed, lowT, highT) -> GaitBucket"): speed < lowT
is walk, lowT ≤ speed < highT is trot, speed ≥ highT is canter.  The gait
classification code itself is not part of `src/` (only the per-horse threshold
fields exist there). -/
def classify (speed lowT highT : ℝ) : GaitBucket :=
  if speed < lowT then .walk else if speed < highT then .trot else .canter

/-- Modelled from the spec: the per-pair instantaneous speed used by the gait
breakdown — the pair's haversine distance divided by its effective time delta,
where per §4.2 step 2 a non-positive `dt` is replaced by 1.0 second; a pair
with an absent timestamp (spec leaves its classification speed unspecified)
also gets the 1.0-second substitute so that its speed stays finite. -/
def gaitPairSpeed (prev cur : Point) : ℝ :=
  let d := haversine prev.lat prev.lon cur.lat cur.lon
  let dt := pairDt prev cur
  let dtEff : ℚ := if dt ≤ 0 then 1 else dt
  d / ((dtEff : ℚ) : ℝ)

/-- Distance attributed to one gait bucket over the pairs of a sequence. -/
def gaitDist (lowT highT : ℝ) (b : GaitBucket) : Point → List Point → ℝ
  | _, [] => 0
  | prev, cur :: rest =>
    (if classify (gaitPairSpeed prev cur) lowT highT = b then
      haversine prev.lat prev.lon cur.lat cur.lon
    else 0) + gaitDist lowT highT b cur rest

/-- Total distance the gait breakdown partitions. -/
def gaitTotal : List Point → ℝ
  | [] => 0
  | p0 :: rest => hsum p0 rest

/-- GaitBreakdown value object: distance per bucket and percentage of total. -/
structure GaitBreakdown where
  walk_m : ℝ
  trot_m : ℝ
  canter_m : ℝ
  walk_pct : ℝ
  trot_pct : ℝ
  canter_pct : ℝ

/-- Modelled from the spec: the §4.3 gait breakdown — partition the track's
total distance into walk/trot/canter by classifying each consecutive pair's
instantaneous speed against the two thresholds, each pair's distance going
entirely to its one bucket; percentages guard a ~0 total distance by
reporting 0.  No gait-breakdown code exists under `src/`. -/
def gaitBreakdown (pts : List Point) (lowT highT : ℝ) : GaitBreakdown :=
  match pts with
  | [] => ⟨0, 0, 0, 0, 0, 0⟩
  | p0 :: rest =>
    let total := hsum p0 rest
    let w := gaitDist lowT highT .walk p0 rest
    let tr := gaitDist lowT highT .trot p0 rest
    let ca := gaitDist lowT highT .canter p0 rest
    let pct : ℝ → ℝ := fun x => if 0 < total then 100 * x / total else 0
    ⟨w, tr, ca, pct w, pct tr, pct ca⟩

/-- Error raised when the raw payload is not decodable track-file structure. -/
inductive MalformedTrackError
  | mk

/-- A GPX track segment: a list of points. -/
structure Seg where
  points : List Point

/-- A GPX track: a list of segments. -/
structure Trk where
  segments : List Seg

/-- A structurally valid GPX document: a list of tracks. -/
structure Gpx where
  tracks : List Trk

/-- A raw track-file payload: either decodable to a GPX document or not. -/
inductive RawPayload
  | malformed
  | wellFormed (g : Gpx)

/-- Modelled from the spec: `gpxpy.parse` (an external library call, not code
under `src/`) — decodes the raw payload, failing with `MalformedTrackError`
exactly when the payload cannot be decoded as valid track-file structure. -/
def gpxParse : RawPayload → Except MalformedTrackError Gpx
  | .malformed => .error .mk
  | .wellFormed g => .ok g

/-- The point-flattening of `parse_gpx_points` (`app/metrics.py` lines 43-48):
all points of all segments of all tracks, in document order. -/
def flattenPoints (g : Gpx) : List Point :=
  g.tracks.flatMap (fun trk => trk.segments.flatMap (fun seg => seg.points))

/-- `parse_gpx_points` (`app/metrics.py` lines 40-48): decode, then flatten
every track's every segment's points into one ordered sequence. -/
def parse_gpx_points (raw : RawPayload) : Except MalformedTrackError (List Point) :=
  (gpxParse raw).map flattenPoints

/-- Concrete input for C1: two points with identical timestamps (dt = 0). -/
def ptsDupTime : List Point := [⟨some 0, 0, 0, none⟩, ⟨some 0, 0, 0, none⟩]

/-- Concrete input for C3: a lone defined elevation surrounded by
elevation-less points. -/
def ptsLoneEle : List Point :=
  [⟨some 0, 0, 0, none⟩, ⟨some 1, 0, 0, some 5⟩, ⟨some 2, 0, 0, none⟩]

/-- Concrete input for C4: two points with no timestamps at all. -/
def ptsNoTime : List Point := [⟨none, 0, 0, none⟩, ⟨none, 0, 0, none⟩]

/-- Concrete input for C5's counterexample: strictly increasing timestamps at
half-second spacing. -/
def ptsHalfSec : List Point :=
  [⟨some 0, 0, 0, none⟩, ⟨some (1/2), 0, 0, none⟩, ⟨some 1, 0, 0, none⟩]

/-- Concrete input for C5's witness: whole-second strictly increasing
timestamps 0, 1, 3. -/
def ptsWholeSec : List Point :=
  [⟨some 0, 0, 0, none⟩, ⟨some 1, 0, 0, none⟩, ⟨some 3, 0, 0, none⟩]

/-- Concrete single-point input for C6's witness. -/
def ptsSingle : List Point := [⟨some 0, 1, 2, some 3⟩]

/-- Concrete input for C2's witness: equator point and north pole, one
second apart — a single pair with a strictly positive distance. -/
def ptsPole : List Point := [⟨some 0, 0, 0, none⟩, ⟨some 1, 90, 0, none⟩]

/-- The (constant) pair speed of `ptsPole`. -/
def vPole : ℝ := gaitPairSpeed ⟨some 0, 0, 0, none⟩ ⟨some 1, 90, 0, none⟩

lemma step_total (thr : ℝ) (prev cur : Point) (s : S) :
    (step thr prev cur s).total_time_s =
      s.total_time_s + (if 0 < pairDt prev cur then ⌊pairDt prev cur⌋ else 0) := rfl

lemma step_distance (thr : ℝ) (prev cur : Point) (s : S) :
    (step thr prev cur s).distance_m =
      s.distance_m + haversine prev.lat prev.lon cur.lat cur.lon := rfl

lemma step_speed_series (thr : ℝ) (prev cur : Point) (s : S) :
    (step thr prev cur s).speed_series =
      s.speed_series ++
        (if 0 < pairDt prev cur then
          [(cur.t <|> prev.t,
            haversine prev.lat prev.lon cur.lat cur.lon / ((pairDt prev cur : ℚ) : ℝ))]
        else []) := rfl

lemma step_moving (thr : ℝ) (prev cur : Point) (s : S) :
    (step thr prev cur s).moving_time_s =
      s.moving_time_s +
        (if 0 < pairDt prev cur then
          (if thr ≤ haversine prev.lat prev.lon cur.lat cur.lon / ((pairDt prev cur : ℚ) : ℝ)
            then ⌊pairDt prev cur⌋ else 0)
        else 0) := rfl

lemma step_min_ele (thr : ℝ) (prev cur : Point) (s : S) :
    (step thr prev cur s).min_ele =
      minFold s.min_ele
        (match prev.ele, cur.ele with
          | some _, some ce => [ce]
          | _, _ => []) := by
  show (match prev.ele, cur.ele with
    | some _, some ce =>
      (match s.min_ele with
        | none => some ce
        | some m => if ce < m then some ce else some m)
    | _, _ => s.min_ele) = _
  rcases prev.ele with _ | pe <;> rcases cur.ele with _ | ce <;>
    rcases s.min_ele with _ | m <;> simp only [minFold]
  split_ifs with h
  · exact congrArg some (min_eq_right h.le).symm
  · exact congrArg some (min_eq_left (not_lt.mp h)).symm

lemma step_max_ele (thr : ℝ) (prev cur : Point) (s : S) :
    (step thr prev cur s).max_ele =
      maxFold s.max_ele
        (match prev.ele, cur.ele with
          | some _, some ce => [ce]
          | _, _ => []) := by
  show (match prev.ele, cur.ele with
    | some _, some ce =>
      (match s.max_ele with
        | none => some ce
        | some m => if m < ce then some ce else some m)
    | _, _ => s.max_ele) = _
  rcases prev.ele with _ | pe <;> rcases cur.ele with _ | ce <;>
    rcases s.max_ele with _ | m <;> simp only [maxFold]
  split_ifs with h
  · exact congrArg some (max_eq_right h.le).symm
  · exact congrArg some (max_eq_left (not_lt.mp h)).symm

lemma orElse_eq_of_pos (prev cur : Point) (h : 0 < pairDt prev cur) :
    (cur.t <|> prev.t) = cur.t := by
  rcases hp : prev.t with _ | a <;> rcases hc : cur.t with _ | b <;>
    simp [pairDt, hp, hc] at h ⊢

lemma loop_total (thr : ℝ) (rest : List Point) : ∀ (prev : Point) (s : S),
    (loop thr prev rest s).total_time_s = s.total_time_s + totalTimeSpec prev rest := by
  induction rest with
  | nil => intro prev s; simp [loop, totalTimeSpec]
  | cons cur rest ih =>
    intro prev s
    simp only [loop, ih, step_total, totalTimeSpec]
    ring

lemma loop_distance (thr : ℝ) (rest : List Point) : ∀ (prev : Point) (s : S),
    (loop thr prev rest s).distance_m = s.distance_m + hsum prev rest := by
  induction rest with
  | nil => intro prev s; simp [loop, hsum]
  | cons cur rest ih =>
    intro prev s
    simp only [loop, ih, step_distance, hsum]
    ring

lemma loop_speed (thr : ℝ) (rest : List Point) : ∀ (prev : Point) (s : S),
    (loop thr prev rest s).speed_series = s.speed_series ++ speedSeriesSpec prev rest := by
  induction rest with
  | nil => intro prev s; simp [loop, speedSeriesSpec]
  | cons cur rest ih =>
    intro prev s
    simp only [loop, ih, step_speed_series, speedSeriesSpec, List.append_assoc]
    congr 2
    split_ifs with h
    · simp [orElse_eq_of_pos prev cur h]
    · rfl

lemma minFold_append (acc : Option ℚ) (l1 l2 : List ℚ) :
    minFold acc (l1 ++ l2) = minFold (minFold acc l1) l2 := by
  induction l1 generalizing acc with
  | nil => simp [minFold]
  | cons c cs ih => rcases acc with _ | m <;> simp [minFold, ih]

lemma maxFold_append (acc : Option ℚ) (l1 l2 : List ℚ) :
    maxFold acc (l1 ++ l2) = maxFold (maxFold acc l1) l2 := by
  induction l1 generalizing acc with
  | nil => simp [maxFold]
  | cons c cs ih => rcases acc with _ | m <;> simp [maxFold, ih]

lemma loop_min (thr : ℝ) (rest : List Point) : ∀ (prev : Point) (s : S),
    (loop thr prev rest s).min_ele = minFold s.min_ele (pairEles prev rest) := by
  induction rest with
  | nil => intro prev s; simp [loop, pairEles, minFold]
  | cons cur rest ih =>
    intro prev s
    simp only [loop, ih, step_min_ele, pairEles, minFold_append]

lemma loop_max (thr : ℝ) (rest : List Point) : ∀ (prev : Point) (s : S),
    (loop thr prev rest s).max_ele = maxFold s.max_ele (pairEles prev rest) := by
  induction rest with
  | nil => intro prev s; simp [loop, pairEles, maxFold]
  | cons cur rest ih =>
    intro prev s
    simp only [loop, ih, step_max_ele, pairEles, maxFold_append]

lemma loop_moving_le (thr : ℝ) (rest : List Point) : ∀ (prev : Point) (s : S),
    s.moving_time_s ≤ s.total_time_s →
    (loop thr prev rest s).moving_time_s ≤ (loop thr prev rest s).total_time_s := by
  induction rest with
  | nil => intro prev s h; exact h
  | cons cur rest ih =>
    intro prev s h
    refine ih cur _ ?_
    rw [step_moving, step_total]
    split_ifs with h1 h2
    · exact add_le_add h le_rfl
    · have : (0:ℤ) ≤ ⌊pairDt prev cur⌋ := Int.floor_nonneg.mpr h1.le
      omega
    · omega

lemma haversine_eq_spec (lat1 lon1 lat2 lon2 : ℝ) :
    haversine lat1 lon1 lat2 lon2 = haversineSpec lat1 lon1 lat2 lon2 := by
  simp only [haversine, haversineSpec]
  ring

lemma hsum_eq_distanceSpec (rest : List Point) : ∀ (prev : Point),
    hsum prev rest = distanceSpec prev rest := by
  induction rest with
  | nil => intro prev; rfl
  | cons cur rest ih =>
    intro prev
    simp only [hsum, distanceSpec, ih, haversine_eq_spec]

lemma totalTimeSpec_nonneg (rest : List Point) : ∀ (prev : Point),
    0 ≤ totalTimeSpec prev rest := by
  induction rest with
  | nil => intro prev; exact le_rfl
  | cons cur rest ih =>
    intro prev
    have h := ih cur
    simp only [totalTimeSpec]
    split_ifs with h1
    · have : (0:ℤ) ≤ ⌊pairDt prev cur⌋ := Int.floor_nonneg.mpr h1.le
      omega
    · omega

lemma speedSeriesSpec_length (rest : List Point) : ∀ (prev : Point),
    (speedSeriesSpec prev rest).length = countPosDt prev rest := by
  induction rest with
  | nil => intro prev; rfl
  | cons cur rest ih =>
    intro prev
    simp only [speedSeriesSpec, countPosDt, List.length_append, ih]
    split_ifs <;> simp

lemma metrics_total (pts : List Point) (thr : ℝ) :
    (compute_metrics pts thr).total_time_s = totalTimeSpecOf pts := by
  cases pts with
  | nil => rfl
  | cons p0 rest =>
    show (loop thr p0 rest (initS p0)).total_time_s = _
    rw [loop_total]
    simp [initS, totalTimeSpecOf]

lemma metrics_distance (pts : List Point) (thr : ℝ) :
    (compute_metrics pts thr).distance_m = distanceSpecOf pts := by
  cases pts with
  | nil => rfl
  | cons p0 rest =>
    show (loop thr p0 rest (initS p0)).distance_m = _
    rw [loop_distance, hsum_eq_distanceSpec]
    show 0 + _ = _
    rw [zero_add]
    rfl

lemma metrics_speed_series (pts : List Point) (thr : ℝ) :
    (compute_metrics pts thr).speed_series = speedSeriesSpecOf pts := by
  cases pts with
  | nil => rfl
  | cons p0 rest =>
    show (loop thr p0 rest (initS p0)).speed_series = _
    rw [loop_speed]
    rfl

lemma metrics_min (pts : List Point) (thr : ℝ) :
    (compute_metrics pts thr).min_elev_m = minFold (headEle pts) (pairElesOf pts) := by
  cases pts with
  | nil => rfl
  | cons p0 rest =>
    show (loop thr p0 rest (initS p0)).min_ele = _
    rw [loop_min]
    rfl

lemma metrics_max (pts : List Point) (thr : ℝ) :
    (compute_metrics pts thr).max_elev_m = maxFold (headEle pts) (pairElesOf pts) := by
  cases pts with
  | nil => rfl
  | cons p0 rest =>
    show (loop thr p0 rest (initS p0)).max_ele = _
    rw [loop_max]
    rfl

lemma zipPairs_cons (prev cur : Point) (rest : List Point) :
    zipPairs (prev :: cur :: rest) = (prev, cur) :: zipPairs (cur :: rest) := rfl

lemma gaitDist_const (v lowT highT : ℝ) (b : GaitBucket) (rest : List Point) :
    ∀ prev : Point, (∀ pq ∈ zipPairs (prev :: rest), gaitPairSpeed pq.1 pq.2 = v) →
    gaitDist lowT highT b prev rest =
      (if classify v lowT highT = b then hsum prev rest else 0) := by
  induction rest with
  | nil => intro prev h; simp [gaitDist, hsum]
  | cons cur rest ih =>
    intro prev h
    have hpair : gaitPairSpeed prev cur = v := h (prev, cur) (by rw [zipPairs_cons]; simp)
    have hrest : ∀ pq ∈ zipPairs (cur :: rest), gaitPairSpeed pq.1 pq.2 = v := by
      intro pq hpq
      exact h pq (by rw [zipPairs_cons]; exact List.mem_cons_of_mem _ hpq)
    rw [gaitDist, hsum, ih cur hrest, hpair]
    split_ifs <;> ring

lemma gaitDist_partition (lowT highT : ℝ) (rest : List Point) : ∀ prev : Point,
    gaitDist lowT highT .walk prev rest + gaitDist lowT highT .trot prev rest +
      gaitDist lowT highT .canter prev rest = hsum prev rest := by
  induction rest with
  | nil => intro prev; simp [gaitDist, hsum]
  | cons cur rest ih =>
    intro prev
    have h := ih cur
    simp only [gaitDist, hsum]
    rcases hcl : classify (gaitPairSpeed prev cur) lowT highT <;> simp [hcl] <;> linarith

lemma classify_mid (v : ℝ) : classify v (v - 1) (v + 1) = .trot := by
  unfold classify
  rw [if_neg (by linarith), if_pos (by linarith)]

lemma classify_above (v : ℝ) : classify v (v - 1) (v - (1/2)) = .canter := by
  unfold classify
  rw [if_neg (by linarith), if_neg (by linarith)]

lemma haversine_pole_pos : 0 < haversine 0 0 90 0 := by
  have hpi := Real.pi_pos
  have h1 : radians (90 - 0) / 2 = Real.pi / 4 := by unfold radians; ring
  have h2 : radians (0 - 0) / 2 = 0 := by unfold radians; ring
  have hsin : (0:ℝ) < Real.sin (radians (90 - 0) / 2) := by
    rw [h1]
    exact Real.sin_pos_of_pos_of_lt_pi (by linarith) (by linarith)
  have ha : (0:ℝ) < Real.sin (radians (90 - 0) / 2) ^ 2 +
      Real.cos (radians 0) * Real.cos (radians 90) * Real.sin (radians (0 - 0) / 2) ^ 2 := by
    rw [h2, Real.sin_zero]
    nlinarith
  have harc : 0 < Real.arcsin (Real.sqrt (Real.sin (radians (90 - 0) / 2) ^ 2 +
      Real.cos (radians 0) * Real.cos (radians 90) * Real.sin (radians (0 - 0) / 2) ^ 2)) :=
    Real.arcsin_pos.mpr (Real.sqrt_pos.mpr ha)
  show (0:ℝ) < 6371000 *
    (2 * Real.arcsin (Real.sqrt (Real.sin (radians (90 - 0) / 2) ^ 2 +
      Real.cos (radians 0) * Real.cos (radians 90) * Real.sin (radians (0 - 0) / 2) ^ 2)))
  nlinarith

lemma totalTimeSpec_telescope (rest : List Point) : ∀ prev : Point,
    (∀ p ∈ prev :: rest, ∃ n : ℤ, p.t = some (n : ℚ)) →
    List.Chain' (fun p c : Point => ∀ a b : ℚ, p.t = some a → c.t = some b → a < b)
      (prev :: rest) →
    ∀ a b : ℚ, prev.t = some a →
    (((prev :: rest).getLast (List.cons_ne_nil prev rest)).t = some b) →
    ((totalTimeSpec prev rest : ℤ) : ℚ) = b - a := by
  induction rest with
  | nil =>
    intro prev _ _ a b ha hb
    rw [List.getLast_singleton] at hb
    rw [ha] at hb
    injection hb with hb
    subst hb
    simp [totalTimeSpec]
  | cons cur rest ih =>
    intro prev hint hmono a b ha hb
    obtain ⟨nc, hc⟩ := hint cur (by simp)
    obtain ⟨na, hna⟩ := hint prev (by simp)
    rw [ha] at hna
    injection hna with hna
    have hlt : a < (nc : ℚ) :=
      (List.chain'_cons.mp hmono).1 a (nc : ℚ) ha hc
    have hdt : pairDt prev cur = (nc : ℚ) - a := by
      unfold pairDt
      rw [ha, hc]
    have hb2 : ((cur :: rest).getLast (List.cons_ne_nil cur rest)).t = some b := by
      rw [← hb]
      exact congrArg Point.t (List.getLast_cons (List.cons_ne_nil cur rest)).symm
    have hrec := ih cur (fun p hp => hint p (List.mem_cons_of_mem _ hp))
      (List.chain'_cons.mp hmono).2 (nc : ℚ) b hc hb2
    have hfloor : ⌊pairDt prev cur⌋ = nc - na := by
      rw [hdt, hna]
      exact_mod_cast Int.floor_intCast (α := ℚ) (nc - na)
    rw [totalTimeSpec, if_pos (by rw [hdt]; linarith)]
    push_cast [hfloor, hrec]
    rw [hna]
    ring

/-- C1: the claim says a consecutive pair with both timestamps and
`dt <= 0` has `dt` substituted by 1.0 second and still receives a
speed-series entry.  The code instead skips such a pair entirely: at two
points with identical timestamps the speed series is empty and total time
is 0, where the claim demands one entry (speed = distance / 1.0) for the
pair. -/
theorem c1_counterexample :
    (compute_metrics ptsDupTime 1).speed_series = [] ∧
      (compute_metrics ptsDupTime 1).total_time_s = 0 := by
  constructor
  · rw [metrics_speed_series]
    norm_num [ptsDupTime, speedSeriesSpecOf, speedSeriesSpec, pairDt]
  · rw [metrics_total]
    norm_num [ptsDupTime, totalTimeSpecOf, totalTimeSpec, pairDt]

/-- C1 (amended): a pair with `dt <= 0` contributes 0 seconds (not a
substituted 1.0 s) to total time and receives no speed-series entry; total
time is the sum of the truncated positive deltas only, hence never
decreases and is never negative, and the speed series has exactly one
entry per pair with a strictly positive delta (so every recorded speed is
finite). -/
theorem c1_nonpositive_dt_skipped (pts : List Point) (thr : ℝ) :
    0 ≤ (compute_metrics pts thr).total_time_s ∧
    (compute_metrics pts thr).total_time_s = totalTimeSpecOf pts ∧
    (compute_metrics pts thr).speed_series.length = countPosDtOf pts := by
  refine ⟨?_, metrics_total pts thr, ?_⟩
  · rw [metrics_total]
    cases pts with
    | nil => exact le_rfl
    | cons p0 rest => exact totalTimeSpec_nonneg rest p0
  · rw [metrics_speed_series]
    cases pts with
    | nil => rfl
    | cons p0 rest => exact speedSeriesSpec_length rest p0

/-- C2: the gait breakdown (modelled from the spec; no gait code exists
under `src/`) partitions the total distance into exactly the three buckets
walk/trot/canter, each pair's distance going entirely to the single bucket
selected by its instantaneous speed; for a track whose pairs all move at
constant speed `v`, thresholds `v-1`/`v+1` put all distance (100%) in
"trot" and thresholds `v-1`/`v-0.5` put all distance (100%) in
"canter". -/
theorem c2_gait_breakdown (pts : List Point) :
    (∀ lowT highT : ℝ,
      (gaitBreakdown pts lowT highT).walk_m + (gaitBreakdown pts lowT highT).trot_m +
        (gaitBreakdown pts lowT highT).canter_m = gaitTotal pts) ∧
    (∀ v : ℝ, (∀ pq ∈ zipPairs pts, gaitPairSpeed pq.1 pq.2 = v) →
      (gaitBreakdown pts (v - 1) (v + 1)).trot_m = gaitTotal pts ∧
      (gaitBreakdown pts (v - 1) (v + 1)).walk_m = 0 ∧
      (gaitBreakdown pts (v - 1) (v + 1)).canter_m = 0 ∧
      (gaitBreakdown pts (v - 1) (v - (1/2))).canter_m = gaitTotal pts ∧
      (0 < gaitTotal pts →
        (gaitBreakdown pts (v - 1) (v + 1)).trot_pct = 100 ∧
        (gaitBreakdown pts (v - 1) (v - (1/2))).canter_pct = 100)) := by
  cases pts with
  | nil =>
    refine ⟨fun lowT highT => ?_, fun v hv => ?_⟩
    · simp [gaitBreakdown, gaitTotal]
    · simp [gaitBreakdown, gaitTotal]
  | cons p0 rest =>
    constructor
    · intro lowT highT
      show gaitDist lowT highT .walk p0 rest + gaitDist lowT highT .trot p0 rest +
        gaitDist lowT highT .canter p0 rest = hsum p0 rest
      exact gaitDist_partition lowT highT rest p0
    · intro v hv
      have htr := gaitDist_const v (v - 1) (v + 1) .trot rest p0 hv
      have hw := gaitDist_const v (v - 1) (v + 1) .walk rest p0 hv
      have hca := gaitDist_const v (v - 1) (v + 1) .canter rest p0 hv
      have hca2 := gaitDist_const v (v - 1) (v - (1/2)) .canter rest p0 hv
      rw [classify_mid] at htr hw hca
      rw [classify_above] at hca2
      simp only [if_pos rfl] at htr hca2
      have hwz : gaitDist (v - 1) (v + 1) .walk p0 rest = 0 := by
        rw [hw, if_neg]
        intro h
        exact GaitBucket.noConfusion h
      have hcz : gaitDist (v - 1) (v + 1) .canter p0 rest = 0 := by
        rw [hca, if_neg]
        intro h
        exact GaitBucket.noConfusion h
      refine ⟨htr, hwz, hcz, hca2, fun hpos => ⟨?_, ?_⟩⟩
      · show (if 0 < hsum p0 rest then
            100 * gaitDist (v - 1) (v + 1) .trot p0 rest / hsum p0 rest else 0) = 100
        have hpos' : 0 < hsum p0 rest := hpos
        rw [if_pos hpos', htr]
        field_simp
      · show (if 0 < hsum p0 rest then
            100 * gaitDist (v - 1) (v - (1/2)) .canter p0 rest / hsum p0 rest else 0) = 100
        have hpos' : 0 < hsum p0 rest := hpos
        rw [if_pos hpos', hca2]
        field_simp

/-- C2 witness: a two-point track (equator point to north pole, one second
apart) has constant pair speed `vPole`; with thresholds `vPole-1`/`vPole+1`
all distance is trot, and with `vPole-1`/`vPole-0.5` the canter percentage
is 100 (the total distance is strictly positive). -/
theorem c2_gait_breakdown_witness :
    (gaitBreakdown ptsPole (vPole - 1) (vPole + 1)).trot_m = gaitTotal ptsPole ∧
    (gaitBreakdown ptsPole (vPole - 1) (vPole - (1/2))).canter_pct = 100 := by
  have hconst : ∀ pq ∈ zipPairs ptsPole, gaitPairSpeed pq.1 pq.2 = vPole := by
    intro pq hpq
    have : pq = (⟨some 0, 0, 0, none⟩, ⟨some 1, 90, 0, none⟩) := by
      simpa [zipPairs, ptsPole] using hpq
    rw [this]
    rfl
  have hpos : 0 < gaitTotal ptsPole := by
    show 0 < hsum ⟨some 0, 0, 0, none⟩ [⟨some 1, 90, 0, none⟩]
    show 0 < haversine 0 0 90 0 + 0
    have := haversine_pole_pos
    linarith
  have h := (c2_gait_breakdown ptsPole).2 vPole hconst
  exact ⟨h.1, (h.2.2.2.2 hpos).2⟩

/-- C3: the claim says min/max elevation are taken over all points with a
defined elevation, so a lone valid reading between elevation-less points
still counts.  The code only updates min/max inside the branch requiring
both pair members to have elevation: at a track whose only elevation (5) is
on the middle point, the result's min and max elevation are absent even
though the set of defined elevations is `[5]`. -/
theorem c3_counterexample :
    (compute_metrics ptsLoneEle 1).min_elev_m = none ∧
    (compute_metrics ptsLoneEle 1).max_elev_m = none ∧
    elesOfPoints ptsLoneEle = [5] := by
  refine ⟨?_, ?_, ?_⟩
  · rw [metrics_min]
    simp [ptsLoneEle, headEle, pairElesOf, pairEles, minFold]
  · rw [metrics_max]
    simp [ptsLoneEle, headEle, pairElesOf, pairEles, maxFold]
  · simp [elesOfPoints, ptsLoneEle]

/-- C3 (amended): min/max elevation are the running min/max seeded with the
first point's elevation (when defined) over the elevations of exactly those
later points whose own and predecessor's elevations are both defined; a
lone defined elevation at a later point whose predecessor lacks elevation
does not affect them, and they are absent exactly when that observed set is
empty. -/
theorem c3_minmax_from_paired_elevations (pts : List Point) (thr : ℝ) :
    (compute_metrics pts thr).min_elev_m = minFold (headEle pts) (pairElesOf pts) ∧
    (compute_metrics pts thr).max_elev_m = maxFold (headEle pts) (pairElesOf pts) :=
  ⟨metrics_min pts thr, metrics_max pts thr⟩

/-- C4: the claim says every point sequence of length n ≥ 2 yields exactly
n-1 speed-series entries.  The code only records an entry when the pair's
time delta is positive: two points with no timestamps produce an empty
series, not 1 entry. -/
theorem c4_counterexample :
    (compute_metrics ptsNoTime 1).speed_series.length = 0 ∧ ptsNoTime.length = 2 := by
  constructor
  · rw [metrics_speed_series]
    norm_num [ptsNoTime, speedSeriesSpecOf, speedSeriesSpec, pairDt]
  · rfl

/-- C4 (amended): the speed series has exactly one entry per consecutive
pair whose two timestamps are present with a strictly positive delta, keyed
by the later point's timestamp (the source's fallback to the earlier
point's timestamp can never fire, because an entry is only recorded when
the later timestamp is present), valued at pair distance over pair delta;
pairs with a missing timestamp or non-positive delta get no entry. -/
theorem c4_speed_series_entries (pts : List Point) (thr : ℝ) :
    (compute_metrics pts thr).speed_series = speedSeriesSpecOf pts :=
  metrics_speed_series pts thr

/-- C5: the claim says that with all timestamps present and strictly
increasing, total time equals the last-minus-first wall-clock span.  The
code truncates each pair delta with `int(dt)` before summing: at
timestamps 0, 0.5, 1 (strictly increasing) the accumulated total is
0 + 0 = 0 seconds while the first-to-last span is 1 second. -/
theorem c5_counterexample :
    (compute_metrics ptsHalfSec 1).total_time_s = 0 ∧
    (compute_metrics ptsHalfSec 1).start_time = some 0 ∧
    (compute_metrics ptsHalfSec 1).end_time = some 1 := by
  refine ⟨?_, rfl, rfl⟩
  rw [metrics_total]
  norm_num [ptsHalfSec, totalTimeSpecOf, totalTimeSpec, pairDt]

/-- C5 (amended): when every point carries a timestamp that is a whole
number of seconds and timestamps are strictly increasing, the accumulated
total time equals the wall-clock span from the first point's timestamp to
the last point's timestamp.  (With fractional timestamps the per-pair
`int(dt)` truncation can lose up to a second per pair.) -/
theorem c5_total_time_is_span (pts : List Point) (thr : ℝ)
    (hint : ∀ p ∈ pts, ∃ n : ℤ, p.t = some (n : ℚ))
    (hmono : List.Chain' (fun p c : Point => ∀ a b : ℚ, p.t = some a → c.t = some b → a < b)
      pts)
    (a b : ℚ)
    (ha : (compute_metrics pts thr).start_time = some a)
    (hb : (compute_metrics pts thr).end_time = some b) :
    (((compute_metrics pts thr).total_time_s : ℤ) : ℚ) = b - a := by
  cases pts with
  | nil => exact absurd ha (by simp [compute_metrics])
  | cons p0 rest =>
    rw [metrics_total]
    have ha' : p0.t = some a := ha
    have hb' : ((p0 :: rest).getLast (List.cons_ne_nil p0 rest)).t = some b := hb
    exact totalTimeSpec_telescope rest p0 hint hmono a b ha' hb'

/-- C5 witness: at whole-second timestamps 0, 1, 3 the total time is the
span 3 - 0. -/
theorem c5_total_time_is_span_witness :
    (((compute_metrics ptsWholeSec 1).total_time_s : ℤ) : ℚ) = 3 - 0 := by
  refine c5_total_time_is_span ptsWholeSec 1 ?_ ?_ 0 3 rfl rfl
  · intro p hp
    simp only [ptsWholeSec, List.mem_cons, List.not_mem_nil, or_false] at hp
    rcases hp with h | h | h <;> subst h
    · exact ⟨0, rfl⟩
    · exact ⟨1, rfl⟩
    · exact ⟨3, rfl⟩
  · refine List.chain'_cons.mpr ⟨?_, List.chain'_cons.mpr ⟨?_, List.chain'_singleton _⟩⟩ <;>
      (intro a b ha hb;
       injection ha with ha; injection hb with hb;
       subst ha; subst hb; norm_num)

/-- C6: an empty or single-point sequence yields, without error, zero
distance, zero total/moving time, zero average/average-moving/max speed,
zero ascent and descent, and empty speed and elevation series. -/
theorem c6_degenerate_input (pts : List Point) (thr : ℝ) (h : pts.length ≤ 1) :
    (compute_metrics pts thr).distance_m = 0 ∧
    (compute_metrics pts thr).total_time_s = 0 ∧
    (compute_metrics pts thr).moving_time_s = 0 ∧
    (compute_metrics pts thr).avg_speed_mps = 0 ∧
    (compute_metrics pts thr).avg_moving_speed_mps = 0 ∧
    (compute_metrics pts thr).max_speed_mps = 0 ∧
    (compute_metrics pts thr).ascent_m = 0 ∧
    (compute_metrics pts thr).descent_m = 0 ∧
    (compute_metrics pts thr).speed_series = [] ∧
    (compute_metrics pts thr).elev_profile = [] := by
  match pts with
  | [] => norm_num [compute_metrics]
  | [p] => norm_num [compute_metrics, loop, initS]
  | p :: q :: rest => simp at h

/-- C6 witness: the single-point sequence `ptsSingle`. -/
theorem c6_degenerate_input_witness :
    (compute_metrics ptsSingle 1).distance_m = 0 ∧
    (compute_metrics ptsSingle 1).speed_series = [] := by
  have h := c6_degenerate_input ptsSingle 1 (by simp [ptsSingle])
  exact ⟨h.1, h.2.2.2.2.2.2.2.2.1⟩

/-- C7: the parser (raw decode modelled from the spec, flattening from the
source) fails with `MalformedTrackError` exactly when the payload is not
decodable as track-file structure; every decodable payload yields the
flattened point sequence without error, and a decodable payload with no
points (zero tracks, segments, or points) yields the empty sequence. -/
theorem c7_parser_errors (raw : RawPayload) :
    ((∃ e, parse_gpx_points raw = Except.error e) ↔ raw = RawPayload.malformed) ∧
    (∀ g, raw = RawPayload.wellFormed g →
      parse_gpx_points raw = Except.ok (flattenPoints g)) ∧
    (∀ g, raw = RawPayload.wellFormed g → flattenPoints g = [] →
      parse_gpx_points raw = Except.ok []) := by
  refine ⟨?_, ?_, ?_⟩
  · cases raw with
    | malformed => exact ⟨fun _ => rfl, fun _ => ⟨MalformedTrackError.mk, rfl⟩⟩
    | wellFormed g => simp [parse_gpx_points, gpxParse, Except.map]
  · rintro g rfl
    simp [parse_gpx_points, gpxParse, Except.map]
  · rintro g rfl hg
    simp [parse_gpx_points, gpxParse, Except.map, hg]

/-- C7 witness: a structurally valid payload with zero tracks parses to the
empty point sequence without error. -/
theorem c7_parser_errors_witness :
    parse_gpx_points (RawPayload.wellFormed ⟨[]⟩) = Except.ok [] :=
  (c7_parser_errors (RawPayload.wellFormed ⟨[]⟩)).2.2 ⟨[]⟩ rfl rfl

/-- C8: average speed is total distance over total time when total time is
positive and 0 when it is 0, and average moving speed is total distance
over moving time when moving time is positive and 0 when it is 0 (guarded
division, never an error). -/
theorem c8_average_speeds (pts : List Point) (thr : ℝ) :
    ((compute_metrics pts thr).total_time_s = 0 →
      (compute_metrics pts thr).avg_speed_mps = 0) ∧
    (0 < (compute_metrics pts thr).total_time_s →
      (compute_metrics pts thr).avg_speed_mps =
        (compute_metrics pts thr).distance_m / ((compute_metrics pts thr).total_time_s : ℝ)) ∧
    ((compute_metrics pts thr).moving_time_s = 0 →
      (compute_metrics pts thr).avg_moving_speed_mps = 0) ∧
    (0 < (compute_metrics pts thr).moving_time_s →
      (compute_metrics pts thr).avg_moving_speed_mps =
        (compute_metrics pts thr).distance_m / ((compute_metrics pts thr).moving_time_s : ℝ)) := by
  cases pts with
  | nil => norm_num [compute_metrics]
  | cons p0 rest =>
    refine ⟨fun h => ?_, fun h => ?_, fun h => ?_, fun h => ?_⟩
    · show (if 0 < (loop thr p0 rest (initS p0)).total_time_s then _ else 0) = 0
      rw [if_neg]
      rw [show (compute_metrics (p0 :: rest) thr).total_time_s =
        (loop thr p0 rest (initS p0)).total_time_s from rfl] at h
      omega
    · have h' : 0 < (loop thr p0 rest (initS p0)).total_time_s := h
      show (if 0 < (loop thr p0 rest (initS p0)).total_time_s then
          (loop thr p0 rest (initS p0)).distance_m /
            ((loop thr p0 rest (initS p0)).total_time_s : ℝ)
        else 0) = _
      rw [if_pos h']
      rfl
    · show (if 0 < (loop thr p0 rest (initS p0)).moving_time_s then _ else 0) = 0
      rw [if_neg]
      rw [show (compute_metrics (p0 :: rest) thr).moving_time_s =
        (loop thr p0 rest (initS p0)).moving_time_s from rfl] at h
      omega
    · have h' : 0 < (loop thr p0 rest (initS p0)).moving_time_s := h
      show (if 0 < (loop thr p0 rest (initS p0)).moving_time_s then
          (loop thr p0 rest (initS p0)).distance_m /
            ((loop thr p0 rest (initS p0)).moving_time_s : ℝ)
        else 0) = _
      rw [if_pos h']
      rfl

/-- C8 witness: at the empty sequence both times are 0 and both averages
are 0. -/
theorem c8_average_speeds_witness :
    (compute_metrics [] 1).avg_speed_mps = 0 ∧
    (compute_metrics [] 1).avg_moving_speed_mps = 0 :=
  ⟨(c8_average_speeds [] 1).1 rfl, (c8_average_speeds [] 1).2.2.1 rfl⟩

/-- C9: the engine's total distance is the sum over consecutive pairs of
the great-circle haversine distance, with the formula exactly as the spec
words it (`a = sin²(Δlat/2) + cos(lat1)·cos(lat2)·sin²(Δlon/2)`,
`d = 2·R·asin(√a)`, R = 6,371,000 m); in particular a two-point sequence's
distance is the haversine of its coordinate pair. -/
theorem c9_haversine_distance (pts : List Point) (thr : ℝ) :
    (compute_metrics pts thr).distance_m = distanceSpecOf pts ∧
    (∀ p q : Point,
      (compute_metrics [p, q] thr).distance_m = haversineSpec p.lat p.lon q.lat q.lon) := by
  refine ⟨metrics_distance pts thr, fun p q => ?_⟩
  rw [metrics_distance]
  show haversineSpec p.lat p.lon q.lat q.lon + 0 = _
  rw [add_zero]

/-- C10: moving time never exceeds total time: a pair's truncated delta is
added to moving time only when the same delta was added to total time. -/
theorem c10_moving_le_total (pts : List Point) (thr : ℝ) :
    (compute_metrics pts thr).moving_time_s ≤ (compute_metrics pts thr).total_time_s := by
  cases pts with
  | nil => exact le_rfl
  | cons p0 rest =>
    show (loop thr p0 rest (initS p0)).moving_time_s ≤ (loop thr p0 rest (initS p0)).total_time_s
    exact loop_moving_le thr rest p0 (initS p0) le_rfl

end GpxAnalyzer
